import Mathlib

/-! Formalization of the data-commons "simple" importer fragment: a shallow
embedding of the golden-verification test utilities
(simple/tests/stats/test_util.py) and of the CLI entry point
(simple/stats/main.py).  File contents and table cells are modelled as
character lists; pandas CSV input/output is modelled by an explicit
minimal-quoting renderer and the matching parser; the sqlite store is a list
of named tables; the time-freezing machinery is modelled by explicit
process-state passing. -/

/-- File and cell contents are modelled as lists of characters. -/
abbrev Str := List Char

/-- Turns a string literal into its character-list representation. -/
def str (s : String) : Str := s.data

/-! ## CSV writing, as performed by pandas `DataFrame.to_csv`
(minimal quoting: a field is quoted iff it contains the delimiter, the quote
character or a line-terminator character; quotes are escaped by doubling;
every record, the header included, ends with a newline). -/

/-- Whether pandas' minimal-quoting CSV writer must quote the field `s`. -/
def csvNeedsQuote (s : Str) : Bool :=
  s.any fun c => c == ',' || c == '"' || c == '\n' || c == '\r'

/-- Doubles every quote character, the escape used inside quoted CSV fields. -/
def csvEscQuotes : Str → Str
  | [] => []
  | c :: cs => if c = '"' then '"' :: '"' :: csvEscQuotes cs else c :: csvEscQuotes cs

/-- Renders one CSV field with minimal quoting. -/
def csvRenderField (s : Str) : Str :=
  if csvNeedsQuote s then '"' :: (csvEscQuotes s ++ ['"']) else s

/-- Renders one CSV record: comma-separated fields terminated by a newline.
An empty record (a zero-column data frame) renders as a bare newline. -/
def csvRenderRecord : List Str → Str
  | [] => ['\n']
  | [f] => csvRenderField f ++ ['\n']
  | f :: fs => csvRenderField f ++ ',' :: csvRenderRecord fs

/-- Renders a list of CSV records (the first record is the header row). -/
def csvRender : List (List Str) → Str
  | [] => []
  | r :: rs => csvRenderRecord r ++ csvRender rs

/-! ## CSV reading, as performed by a standard CSV reader
(`pandas.read_csv`'s tokenizer): quoted fields may contain any character,
a doubled quote denotes a literal quote, unquoted fields run until the next
delimiter or line end. -/

/-- Parses the body of a quoted field (the opening quote already consumed);
returns the field content and the input remaining after the closing quote. -/
def csvParseQuoted : Str → Str × Str
  | [] => ([], [])
  | c :: cs =>
    if c = '"' then
      match cs with
      | c' :: cs' =>
        if c' = '"' then ('"' :: (csvParseQuoted cs').1, (csvParseQuoted cs').2)
        else ([], cs)
      | [] => ([], [])
    else (c :: (csvParseQuoted cs).1, (csvParseQuoted cs).2)

/-- Parses an unquoted field: everything up to the next separator. -/
def csvParseBare : Str → Str × Str
  | [] => ([], [])
  | c :: cs =>
    if c = ',' ∨ c = '\n' then ([], c :: cs)
    else (c :: (csvParseBare cs).1, (csvParseBare cs).2)

/-- Parses one CSV field, quoted or bare. -/
def csvParseField : Str → Str × Str
  | [] => ([], [])
  | c :: cs => if c = '"' then csvParseQuoted cs else csvParseBare (c :: cs)

/-- Parses one CSV record (fuel bounds the number of fields). -/
def csvParseRecordFuel : Nat → Str → List Str × Str
  | 0, cs => ([], cs)
  | fuel + 1, cs =>
    match csvParseField cs with
    | (f, c :: r) =>
      if c = ',' then
        (f :: (csvParseRecordFuel fuel r).1, (csvParseRecordFuel fuel r).2)
      else if c = '\n' then ([f], r)
      else ([f], [])
    | (f, []) => ([f], [])

/-- Parses one CSV record together with the remaining input. -/
def csvParseRecord (cs : Str) : List Str × Str :=
  csvParseRecordFuel (cs.length + 1) cs

/-- Parses a sequence of CSV records (fuel bounds the number of records). -/
def csvParseFuel : Nat → Str → List (List Str)
  | 0, _ => []
  | fuel + 1, cs =>
    if cs = [] then []
    else (csvParseRecord cs).1 :: csvParseFuel fuel (csvParseRecord cs).2

/-- Parses CSV content into its list of records. -/
def csvParse (cs : Str) : List (List Str) :=
  csvParseFuel cs.length cs

/-- The remainder of the input after a rendered field: empty, or starting with
a field separator or a record separator. -/
def csvSepStart (rest : Str) : Prop :=
  rest = [] ∨ (∃ r, rest = ',' :: r) ∨ (∃ r, rest = '\n' :: r)


/-! ## Data model (simple/stats/data.py is not among the visible sources) -/

/-- Modelled from the spec: a Triple is a subject/predicate/object assertion
with fields subject id, predicate, object id and object value (stats/data.py,
which defines the `Triple` dataclass, is not among the visible sources). -/
structure Triple where
  subject_id : Str
  predicate : Str
  object_id : Str
  object_value : Str
deriving DecidableEq, Repr

/-- The Triple dataclass field names, in declaration order: these become the
pandas DataFrame columns when a list of Triples is framed. -/
def TRIPLE_FIELD_NAMES : List Str :=
  [str "subject_id", str "predicate", str "object_id", str "object_value"]

/-- The cells of one Triple, in field order. -/
def tripleCells (t : Triple) : List Str :=
  [t.subject_id, t.predicate, t.object_id, t.object_value]

/-- Modelled from the spec: OBSERVATION_FIELD_NAMES is defined in
stats/data.py, which is not among the visible sources; §3/§8 of the spec fix
the leading columns entity, variable, date, value as the fixed ordered field
list of the observations table. -/
def OBSERVATION_FIELD_NAMES : List Str :=
  [str "entity", str "variable", str "date", str "value"]

/-- The key-value export column names, written literally in test_util.py. -/
def KEY_VALUE_FIELD_NAMES : List Str := [str "lookup_key", str "value"]

/-! ## The sqlite store: a sequence of named tables, each a schema (column
list) plus its rows in rowid order.  Cell values are modelled by their
textual rendering. -/

structure Table where
  name : Str
  cols : List Str
  rows : List (List Str)
deriving DecidableEq, Repr

structure Store where
  tables : List Table
deriving DecidableEq, Repr

def emptyStore : Store := ⟨[]⟩

/-- `select * from name` on the store: the rows of the named table in table
order, or `none` ("no such table") when the table does not exist. -/
def selectAll (s : Store) (name : Str) : Option (List (List Str)) :=
  (s.tables.find? fun t => t.name == name).map Table.rows

/-- The ambient process environment an export could in principle consult: the
current clock reading.  None of the export helpers in test_util.py reads it;
it is threaded through their embeddings so that run-to-run determinism is a
statement and not a tautology of notation. -/
structure Ambient where
  time : Int
deriving DecidableEq, Repr

/-! ## CSV export helpers of test_util.py -/

/-- `write_triples_list(triples, output_path)`: frames the Triple list with
`pd.DataFrame(triples)` and writes it with `to_csv(index=False)`.  An empty
list gives a DataFrame with no columns at all (pandas cannot recover the
dataclass fields from zero elements), whose CSV is a single empty header
line; a nonempty list gives the four Triple columns followed by one row per
Triple, in list order. -/
def write_triples_list (triples : List Triple) : Str :=
  if triples = [] then csvRender [[]]
  else csvRender (TRIPLE_FIELD_NAMES :: triples.map tripleCells)

/-- `Triple(*row)`: builds a Triple from one four-cell table row. -/
def rowToTriple : List Str → Option Triple
  | [a, b, c, d] => some ⟨a, b, c, d⟩
  | _ => none

/-- Option-valued `mapM`: the first failing element aborts, as a Python list
comprehension aborts on the first raised exception. -/
def listMapM (f : α → Option β) : List α → Option (List β)
  | [] => some []
  | a :: as =>
    match f a, listMapM f as with
    | some b, some bs => some (b :: bs)
    | _, _ => none

/-- `write_observations(db_path, output_path)`: selects all rows of the
observations table and writes them via
`pd.DataFrame(rows, columns=OBSERVATION_FIELD_NAMES).to_csv(output_path,
index=False)`.  `none` models the sqlite error on a missing table or the
pandas shape error when a row does not match the column list. -/
def write_observations (_amb : Ambient) (db : Store) : Option Str :=
  match selectAll db (str "observations") with
  | none => none
  | some rows =>
    if rows.all fun r => r.length == OBSERVATION_FIELD_NAMES.length then
      some (csvRender (OBSERVATION_FIELD_NAMES :: rows))
    else none

/-- `write_triples(db_path, output_path)`: selects all rows of the triples
table, converts each row with `Triple(*row)` and delegates to
`write_triples_list`. -/
def write_triples (_amb : Ambient) (db : Store) : Option Str :=
  match selectAll db (str "triples") with
  | none => none
  | some rows =>
    match listMapM rowToTriple rows with
    | none => none
    | some triples => some (write_triples_list triples)

/-- `write_key_values(db_path, output_path)`: selects all rows of the
key_value_store table and writes them via `pd.DataFrame(rows,
columns=["lookup_key", "value"]).to_csv(output_path, index=False)`. -/
def write_key_values (_amb : Ambient) (db : Store) : Option Str :=
  match selectAll db (str "key_value_store") with
  | none => none
  | some rows =>
    if rows.all fun r => r.length == KEY_VALUE_FIELD_NAMES.length then
      some (csvRender (KEY_VALUE_FIELD_NAMES :: rows))
    else none

/-- `read_triples_csv(path)`: `pd.read_csv(path, keep_default_na=False)`
followed by `Triple(**kwargs)` for each row.  With `keep_default_na=False`
every cell, the empty cell included, is taken verbatim instead of being
turned into a missing-value marker.  `none` models the pandas errors: no
parsable content, a header other than the four Triple columns, or a row of
the wrong width. -/
def read_triples_csv (content : Str) : Option (List Triple) :=
  match csvParse content with
  | [] => none
  | header :: rows =>
    if header = TRIPLE_FIELD_NAMES then listMapM rowToTriple rows
    else none

/-! ## Full-database dump and restore (test_util.py)
`write_full_db_to_file` writes the lines of `sqlite3.Connection.iterdump()`:
a BEGIN TRANSACTION, then, per table, its CREATE TABLE statement followed by
one INSERT per row in rowid order, then a COMMIT.  `read_full_db_from_file`
replays such a script with `executescript` against a (fresh) database.  The
script file is modelled as the sequence of SQL statements it contains. -/

inductive SqlStatement where
  | beginTransaction : SqlStatement
  | createTable (name : Str) (cols : List Str) : SqlStatement
  | insertRow (table : Str) (row : List Str) : SqlStatement
  | commit : SqlStatement
deriving DecidableEq, Repr

/-- The reconstruction statements for one table: its schema, then its rows in
stored order. -/
def dumpTable (t : Table) : List SqlStatement :=
  SqlStatement.createTable t.name t.cols :: t.rows.map (SqlStatement.insertRow t.name)

/-- `write_full_db_to_file(db_path, output_path)`: the iterdump script of the
store. -/
def write_full_db_to_file (s : Store) : List SqlStatement :=
  SqlStatement.beginTransaction :: (s.tables.map dumpTable).flatten ++ [SqlStatement.commit]

/-- Appends rows to a table when it is the one a statement names. -/
def appendRows (name : Str) (rows : List (List Str)) (t : Table) : Table :=
  if t.name = name then ⟨t.name, t.cols, t.rows ++ rows⟩ else t

/-- Executes one SQL statement of a dump script against a store. -/
def execStatement (s : Store) : SqlStatement → Store
  | SqlStatement.beginTransaction => s
  | SqlStatement.commit => s
  | SqlStatement.createTable name cols => ⟨s.tables ++ [⟨name, cols, []⟩]⟩
  | SqlStatement.insertRow name row => ⟨s.tables.map (appendRows name [row])⟩

/-- `read_full_db_from_file(db_path, input_path)`: replays the script against
the database at `db_path`. -/
def read_full_db_from_file (script : List SqlStatement) (s : Store) : Store :=
  script.foldl execStatement s

/-! ## Deterministic-time facility -/

/-- The process-wide clock, as freezegun manipulates it: the real clock, or a
clock frozen at a given instant with an ignore-list of exempted packages. -/
inductive ClockSource where
  | real : ClockSource
  | frozen (instant : String) (ignore : List String) : ClockSource
deriving DecidableEq, Repr

/-- The time source the gzip module consults (`gzip.time`): the real time
module, or a `FakeGzipTime(timestamp)` instance whose `time()` returns the
fixed timestamp. -/
inductive GzipTimeSource where
  | realTime : GzipTimeSource
  | fakeGzipTime (timestamp : Int) : GzipTimeSource
deriving DecidableEq, Repr

/-- The process-wide mutable state the time helpers touch. -/
structure ProcState where
  clock : ClockSource
  gzipTime : GzipTimeSource
deriving DecidableEq, Repr

/-- A fresh process: real clock, real gzip time. -/
def initialProcState : ProcState := ⟨ClockSource.real, GzipTimeSource.realTime⟩

/-- `use_fake_gzip_time(timestamp=0)` from test_util.py: assigns
`gzip.time = FakeGzipTime(timestamp)`.  The assignment neither saves nor
restores the previous time source. -/
def use_fake_gzip_time (timestamp : Int) (st : ProcState) : ProcState :=
  { st with gzipTime := GzipTimeSource.fakeGzipTime timestamp }

/-- The `with freeze_time(instant, ignore=...)` context manager from main.py:
installs the frozen clock for the body and restores the previous clock when
the block exits, whether the body succeeded or raised (`α` carries the body's
outcome, e.g. an `Except`). -/
def withFreezeTime (instant : String) (ignore : List String)
    (body : ProcState → ProcState × α) (st : ProcState) : ProcState × α :=
  let res := body { st with clock := ClockSource.frozen instant ignore }
  ({ res.1 with clock := st.clock }, res.2)

/-! ## The CLI entry point (simple/stats/main.py) -/

/-- Modelled from the spec: RunMode is a closed enumeration of named run
modes with at minimum the default/custom mode (stats/runner.py is not among
the visible sources); main.py only passes the flag value through. -/
inductive RunMode where
  | CUSTOM_DC : RunMode
deriving DecidableEq, Repr

/-- The flag values main.py consumes. -/
structure Flags where
  config_file : Option String
  input_dir : String
  output_dir : String
  mode : RunMode
  freeze_time : Bool
  frozen_time : String
deriving DecidableEq, Repr

/-- One construction of `Runner(config_file_path=..., input_dir_path=...,
output_dir_path=..., mode=...)` followed by `.run()`. -/
structure RunnerCall where
  config_file_path : Option String
  input_dir_path : String
  output_dir_path : String
  mode : RunMode
deriving DecidableEq, Repr

/-- The packages exempted from time freezing, from main.py. -/
def _FREEZE_TIME_IGNORE_LIST : List String := ["transformers"]

/-- `_run()` from main.py: initializes the logger (a no-op collaborator) and
constructs and runs the Runner once with the four flag values.  Modelled as
the list of Runner invocations performed, each recorded with the clock in
effect when `run()` was entered. -/
def _run (f : Flags) (st : ProcState) : ProcState × List (ClockSource × RunnerCall) :=
  (st, [(st.clock, ⟨f.config_file, f.input_dir, f.output_dir, f.mode⟩)])

namespace stats

/-- `main` from main.py: when the freeze_time flag is set, runs `_run` inside
`freeze_time(FLAGS.frozen_time, ignore=_FREEZE_TIME_IGNORE_LIST)`; otherwise
runs `_run` directly. -/
def main (f : Flags) (st : ProcState) : ProcState × List (ClockSource × RunnerCall) :=
  if f.freeze_time then
    withFreezeTime f.frozen_time _FREEZE_TIME_IGNORE_LIST (_run f) st
  else _run f st

end stats

/-! ## Golden-verification harness mode (test_util.py) -/

/-- A process environment: variable name to value, `none` when unset. -/
abbrev Env := String → Option String

/-- `os.getenv(name, default)`. -/
def getenv (env : Env) (name default : String) : String :=
  (env name).getD default

/-- `_TEST_MODE = os.getenv("TEST_MODE", "")`: evaluated once, when
test_util.py is imported, against the environment at import time. -/
def _TEST_MODE (importEnv : Env) : String :=
  getenv importEnv "TEST_MODE" ""

/-- `_WRITE_MODE = "write"`. -/
def _WRITE_MODE : String := "write"

/-- `is_write_mode()`: compares the module-level `_TEST_MODE` against
`_WRITE_MODE`. -/
def is_write_mode (importEnv : Env) : Bool :=
  _TEST_MODE importEnv == _WRITE_MODE

/-- A call to `is_write_mode()` later in the process's life: the body reads
only the module global captured at import; the environment current at call
time is not consulted. -/
def is_write_mode_call (importEnv : Env) (_currentEnv : Env) : Bool :=
  is_write_mode importEnv

/-! ## compare_files (test_util.py) -/

/-- A file system: path to file contents, `none` when the file is absent. -/
abbrev FileSystem := String → Option Str

/-- `compare_files(test, actual_path, expected_path)`: asserts that the two
existence bits agree (failing otherwise), returns success when neither file
exists, and otherwise reads both files and asserts their contents equal.
`true` models "every assertion passed". -/
def compare_files (fs : FileSystem) (actual_path expected_path : String) : Bool :=
  let actual_file_exists := (fs actual_path).isSome
  let expected_file_exists := (fs expected_path).isSome
  if actual_file_exists ≠ expected_file_exists then false
  else if expected_file_exists = false then true
  else decide (fs actual_path = fs expected_path)

/-! ## Concrete sample inputs used by witnesses and counterexamples -/

/-- A store with the three canonical tables, one row each. -/
def sampleStore : Store :=
  ⟨[⟨str "observations", OBSERVATION_FIELD_NAMES,
      [[str "e1", str "v1", str "2023", str "1"]]⟩,
    ⟨str "triples", TRIPLE_FIELD_NAMES,
      [[str "s", str "p", str "o", str ""]]⟩,
    ⟨str "key_value_store", KEY_VALUE_FIELD_NAMES,
      [[str "k", str "v"]]⟩]⟩

/-- A store whose triples table exists but holds no rows. -/
def storeEmptyTriples : Store :=
  ⟨[⟨str "triples", TRIPLE_FIELD_NAMES, []⟩]⟩

/-- A file system where both compared files exist but with different
content. -/
def fsBothDiffer : FileSystem := fun p =>
  if p = "actual.csv" then some (str "1")
  else if p = "expected.csv" then some (str "2")
  else none

/-- A concrete flag assignment with time freezing requested. -/
def sampleFlags : Flags :=
  ⟨some "config.json", "input", "output", RunMode.CUSTOM_DC, true, "2023-01-01"⟩

/-! ## The CSV parser inverts the CSV renderer -/

theorem csvSepStart_not_quote {rest : Str} (h : csvSepStart rest) :
    ∀ r, rest ≠ '"' :: r := by
  intro r hr
  rcases h with h | ⟨r', h⟩ | ⟨r', h⟩ <;> subst h <;> simp_all

theorem csvParseQuoted_append (s rest : Str) (h : ∀ r, rest ≠ '"' :: r) :
    csvParseQuoted (csvEscQuotes s ++ '"' :: rest) = (s, rest) := by
  induction s with
  | nil =>
    cases rest with
    | nil => rfl
    | cons c r =>
      have hc : c ≠ '"' := fun hc => h r (by rw [hc])
      simp [csvEscQuotes, csvParseQuoted, hc]
  | cons a s ih =>
    by_cases ha : a = '"'
    · subst ha
      simp only [csvEscQuotes, if_pos rfl, List.cons_append]
      simp [csvParseQuoted, ih]
    · simp only [csvEscQuotes, if_neg ha, List.cons_append]
      rw [csvParseQuoted.eq_def]
      simp [ha, ih]

theorem csvParseBare_append (s rest : Str)
    (hs : ∀ c ∈ s, ¬(c = ',' ∨ c = '\n')) (hrest : csvSepStart rest) :
    csvParseBare (s ++ rest) = (s, rest) := by
  induction s with
  | nil =>
    rcases hrest with h | ⟨r, h⟩ | ⟨r, h⟩ <;> subst h <;> simp [csvParseBare]
  | cons c cs ih =>
    have hc : ¬(c = ',' ∨ c = '\n') := hs c (List.mem_cons_self c cs)
    have := ih fun c' hc' => hs c' (List.mem_cons_of_mem c hc')
    simp [csvParseBare, hc, this]

theorem csvNeedsQuote_eq_false {s : Str} (h : csvNeedsQuote s = false) :
    ∀ c ∈ s, c ≠ ',' ∧ c ≠ '"' ∧ c ≠ '\n' ∧ c ≠ '\r' := by
  intro c hc
  simp only [csvNeedsQuote, List.any_eq_false] at h
  have := h c hc
  simp only [Bool.or_eq_true, beq_iff_eq] at this
  push_neg at this
  tauto

theorem csvParseField_append (s rest : Str) (hrest : csvSepStart rest) :
    csvParseField (csvRenderField s ++ rest) = (s, rest) := by
  unfold csvRenderField
  by_cases hq : csvNeedsQuote s = true
  · rw [if_pos hq]
    simp only [List.cons_append, List.append_assoc, List.singleton_append]
    simp [csvParseField, csvParseQuoted_append s rest (csvSepStart_not_quote hrest)]
  · rw [if_neg hq]
    have hs := csvNeedsQuote_eq_false (Bool.eq_false_iff.mpr hq)
    cases s with
    | nil =>
      rcases hrest with h | ⟨r, h⟩ | ⟨r, h⟩ <;> subst h <;>
        simp [csvParseField, csvParseBare]
    | cons c cs =>
      have hc := hs c (List.mem_cons_self c cs)
      have hbare : ∀ c' ∈ c :: cs, ¬(c' = ',' ∨ c' = '\n') := by
        intro c' hc' h'
        have := hs c' hc'
        tauto
      simp only [List.cons_append, csvParseField, if_neg hc.2.1]
      rw [← List.cons_append]
      exact csvParseBare_append (c :: cs) rest hbare hrest

theorem csvParseRecordFuel_append (r : List Str) :
    ∀ (fuel : Nat) (rest : Str), r ≠ [] → r.length ≤ fuel →
      csvParseRecordFuel fuel (csvRenderRecord r ++ rest) = (r, rest) := by
  induction r with
  | nil => intro fuel rest hr _; exact absurd rfl hr
  | cons f fs ih =>
    intro fuel rest _ hfuel
    cases fuel with
    | zero => simp at hfuel
    | succ k =>
      cases fs with
      | nil =>
        have hfield : csvParseField (csvRenderField f ++ '\n' :: rest) =
            (f, '\n' :: rest) :=
          csvParseField_append f ('\n' :: rest) (Or.inr (Or.inr ⟨rest, rfl⟩))
        simp only [csvRenderRecord, List.append_assoc, List.singleton_append]
        simp [csvParseRecordFuel, hfield]
      | cons f' fs' =>
        have hfield : csvParseField
            (csvRenderField f ++ ',' :: (csvRenderRecord (f' :: fs') ++ rest)) =
            (f, ',' :: (csvRenderRecord (f' :: fs') ++ rest)) :=
          csvParseField_append f _ (Or.inr (Or.inl ⟨_, rfl⟩))
        have htail := ih k rest (by simp) (by simpa using hfuel)
        simp only [csvRenderRecord, List.append_assoc, List.cons_append]
        simp [csvParseRecordFuel, hfield, htail]

theorem length_le_csvRenderRecord (r : List Str) :
    r.length ≤ (csvRenderRecord r).length := by
  induction r with
  | nil => simp [csvRenderRecord]
  | cons f fs ih =>
    cases fs with
    | nil => simp [csvRenderRecord]
    | cons f' fs' =>
      simp only [csvRenderRecord, List.length_append, List.length_cons] at *
      omega

theorem csvRenderRecord_ne_nil (r : List Str) : csvRenderRecord r ≠ [] := by
  cases r with
  | nil => simp [csvRenderRecord]
  | cons f fs =>
    cases fs with
    | nil => simp [csvRenderRecord]
    | cons f' fs' => simp [csvRenderRecord]

theorem csvParseRecord_append (r : List Str) (rest : Str) (hr : r ≠ []) :
    csvParseRecord (csvRenderRecord r ++ rest) = (r, rest) := by
  apply csvParseRecordFuel_append r _ rest hr
  have := length_le_csvRenderRecord r
  simp only [List.length_append]
  omega

theorem length_le_csvRender (rs : List (List Str)) :
    rs.length ≤ (csvRender rs).length := by
  induction rs with
  | nil => simp [csvRender]
  | cons r rs ih =>
    have h1 : 1 ≤ (csvRenderRecord r).length :=
      List.length_pos.mpr (csvRenderRecord_ne_nil r)
    simp only [csvRender, List.length_append, List.length_cons]
    omega

theorem csvParseFuel_render (rs : List (List Str)) :
    ∀ fuel : Nat, (∀ r ∈ rs, r ≠ []) → rs.length ≤ fuel →
      csvParseFuel fuel (csvRender rs) = rs := by
  induction rs with
  | nil =>
    intro fuel _ _
    cases fuel <;> simp [csvParseFuel, csvRender]
  | cons r rs ih =>
    intro fuel h hfuel
    cases fuel with
    | zero => simp at hfuel
    | succ k =>
      have hne : csvRenderRecord r ++ csvRender rs ≠ [] := by
        intro hc
        exact csvRenderRecord_ne_nil r (List.append_eq_nil.mp hc).1
      have hrec := csvParseRecord_append r (csvRender rs)
        (h r (List.mem_cons_self r rs))
      have htail := ih k (fun r' hr' => h r' (List.mem_cons_of_mem r hr'))
        (by simpa using hfuel)
      simp [csvParseFuel, csvRender, hne, hrec, htail]

/-- Round trip: parsing rendered CSV recovers the records, provided every
record has at least one field (a zero-column frame renders as a bare newline,
which parses as one single-empty-field record instead). -/
theorem csvParse_render (rs : List (List Str)) (h : ∀ r ∈ rs, r ≠ []) :
    csvParse (csvRender rs) = rs :=
  csvParseFuel_render rs (csvRender rs).length h (length_le_csvRender rs)

/-! ## compare_files: existence and content semantics -/

theorem compare_files_eq_true_iff (fs : FileSystem) (a e : String) :
    compare_files fs a e = true ↔ fs a = fs e := by
  unfold compare_files
  cases h1 : fs a <;> cases h2 : fs e <;>
    simp [h1, h2, Option.isSome]

/-- C2: compare_files succeeds exactly when both files exist with identical
content or neither file exists; whenever only one of the two exists it fails,
no matter what the existing file contains (the disjunction leaves no room for
a pass with mismatched existence, so a golden file with no actual counterpart
fails). -/
theorem C2_compare_files_pass_iff (fs : FileSystem) (a e : String) :
    compare_files fs a e = true ↔
      (fs a = none ∧ fs e = none) ∨ (∃ c, fs a = some c ∧ fs e = some c) := by
  rw [compare_files_eq_true_iff]
  constructor
  · intro h
    cases he : fs e with
    | none => exact Or.inl ⟨h.trans he, rfl⟩
    | some c => exact Or.inr ⟨c, h.trans he, rfl⟩
  · rintro (⟨h1, h2⟩ | ⟨c, h1, h2⟩) <;> rw [h1, h2]

/-- C3 counterexample: both files exist (so the claim as stated predicts a
pass from existence alone) yet compare_files fails because the contents
differ — file existence alone does not determine the outcome. -/
theorem C3_counterexample :
    (fsBothDiffer "actual.csv").isSome = true ∧
    (fsBothDiffer "expected.csv").isSome = true ∧
    compare_files fsBothDiffer "actual.csv" "expected.csv" = false := by
  refine ⟨rfl, rfl, ?_⟩
  decide

/-- C3 (amended): compare_files passes iff the two paths carry equal
content-as-option — both absent, or both present with identical content; a
mismatch in existence or in content fails. -/
theorem C3_amended_compare_files_content (fs : FileSystem) (a e : String) :
    compare_files fs a e = true ↔ fs a = fs e :=
  compare_files_eq_true_iff fs a e

/-! ## Harness mode selection -/

theorem is_write_mode_eq_true_iff (env : Env) :
    is_write_mode env = true ↔ env "TEST_MODE" = some "write" := by
  unfold is_write_mode _TEST_MODE getenv _WRITE_MODE
  cases h : env "TEST_MODE" with
  | none => simp
  | some v => simp [beq_iff_eq]

/-- C8: the harness is in write mode iff the TEST_MODE environment variable
is set to exactly the string "write"; any other value, the unset case
included, yields verify mode. -/
theorem C8_write_mode_iff (env : Env) :
    is_write_mode env = true ↔ env "TEST_MODE" = some "write" :=
  is_write_mode_eq_true_iff env

/-- C9: TEST_MODE is captured once at module import: every later call to
is_write_mode returns the same boolean whatever the environment has become,
and that boolean is true exactly when the import-time value was the exact
string "write" (so "WRITE", "Write", the empty string and unset all give
false). -/
theorem C9_test_mode_captured_at_import (importEnv laterEnv1 laterEnv2 : Env) :
    is_write_mode_call importEnv laterEnv1 = is_write_mode_call importEnv laterEnv2 ∧
    (is_write_mode_call importEnv laterEnv1 = true ↔
      importEnv "TEST_MODE" = some "write") :=
  ⟨rfl, is_write_mode_eq_true_iff importEnv⟩

/-! ## Export determinism -/

/-- C4: against a fixed store state, each CSV export operation produces the
same bytes on every run, whatever the ambient process state (clock reading)
of each run — the exports consult only the store. -/
theorem C4_export_determinism (db : Store) (amb1 amb2 : Ambient) :
    write_observations amb1 db = write_observations amb2 db ∧
    write_triples amb1 db = write_triples amb2 db ∧
    write_key_values amb1 db = write_key_values amb2 db :=
  ⟨rfl, rfl, rfl⟩

/-! ## Time facility teardown and main dispatch -/

/-- C6 counterexample: use_fake_gzip_time installs the fake gzip time source
and returns; no teardown exists — the process state after the call (its whole
scope) still carries the frozen timestamp, unlike the real source it
replaced. -/
theorem C6_counterexample :
    (use_fake_gzip_time 0 initialProcState).gzipTime = GzipTimeSource.fakeGzipTime 0 ∧
    (use_fake_gzip_time 0 initialProcState).gzipTime ≠ initialProcState.gzipTime := by
  refine ⟨rfl, ?_⟩
  decide

/-- C6 (amended): the freeze_time clock override is torn down at the end of
its with-scope whatever the body's outcome, restoring the prior clock; the
gzip time override installed by use_fake_gzip_time, however, persists after
the call returns and is never restored. -/
theorem C6_amended_teardown (α : Type) :
    (∀ (instant : String) (ignore : List String)
       (body : ProcState → ProcState × α) (st : ProcState),
        ((withFreezeTime instant ignore body st).1).clock = st.clock) ∧
    (∀ (timestamp : Int) (st : ProcState),
        (use_fake_gzip_time timestamp st).gzipTime =
          GzipTimeSource.fakeGzipTime timestamp) :=
  ⟨fun _ _ _ _ => rfl, fun _ _ => rfl⟩

/-- C7: starting from the real clock, main performs exactly one Runner
invocation, built from the four flag values (config_file, input_dir,
output_dir, mode); the invocation runs under a clock frozen at frozen_time
with ignore-list ["transformers"] exactly when the freeze_time flag is true,
and under the real clock otherwise. -/
theorem C7_main_dispatch (f : Flags) (st : ProcState)
    (h : st.clock = ClockSource.real) :
    (stats.main f st).2 =
      [((if f.freeze_time then ClockSource.frozen f.frozen_time ["transformers"]
         else ClockSource.real),
        ⟨f.config_file, f.input_dir, f.output_dir, f.mode⟩)] := by
  by_cases hf : f.freeze_time <;>
    simp [stats.main, withFreezeTime, _run, _FREEZE_TIME_IGNORE_LIST, hf, h]

/-- Witness for C7 at a concrete frozen-time flag assignment and a fresh
process. -/
theorem C7_main_dispatch_witness :
    initialProcState.clock = ClockSource.real ∧
    (stats.main sampleFlags initialProcState).2 =
      [(ClockSource.frozen "2023-01-01" ["transformers"],
        ⟨some "config.json", "input", "output", RunMode.CUSTOM_DC⟩)] :=
  ⟨rfl, C7_main_dispatch sampleFlags initialProcState rfl⟩

/-! ## Dump/restore round trip -/

theorem appendRows_nil (name : Str) (t : Table) : appendRows name [] t = t := by
  obtain ⟨n, c, r⟩ := t
  simp [appendRows]

theorem appendRows_appendRows (name : Str) (r1 r2 : List (List Str)) (t : Table) :
    appendRows name r2 (appendRows name r1 t) = appendRows name (r1 ++ r2) t := by
  obtain ⟨n, c, r⟩ := t
  by_cases h : n = name <;> simp [appendRows, h]

theorem foldl_insertRows (name : Str) (rows : List (List Str)) :
    ∀ ts : List Table,
      List.foldl execStatement ⟨ts⟩ (rows.map (SqlStatement.insertRow name)) =
        ⟨ts.map (appendRows name rows)⟩ := by
  induction rows with
  | nil =>
    intro ts
    have h : ts.map (appendRows name []) = ts := by
      have h' : appendRows name [] = fun t => t := funext (appendRows_nil name)
      rw [h']
      exact List.map_id' ts
    simp [h]
  | cons r rows ih =>
    intro ts
    simp only [List.map_cons, List.foldl_cons]
    show List.foldl execStatement ⟨ts.map (appendRows name [r])⟩
        (rows.map (SqlStatement.insertRow name)) = _
    rw [ih, List.map_map]
    have h : appendRows name rows ∘ appendRows name [r] =
        appendRows name (r :: rows) := by
      funext t
      rw [Function.comp_apply, appendRows_appendRows]
      rfl
    rw [h]

theorem foldl_dumpTable (t : Table) (ts : List Table)
    (h : t.name ∉ ts.map Table.name) :
    List.foldl execStatement ⟨ts⟩ (dumpTable t) = ⟨ts ++ [t]⟩ := by
  unfold dumpTable
  rw [List.foldl_cons]
  show List.foldl execStatement ⟨ts ++ [⟨t.name, t.cols, []⟩]⟩
      (t.rows.map (SqlStatement.insertRow t.name)) = _
  rw [foldl_insertRows, List.map_append]
  have h1 : ts.map (appendRows t.name t.rows) = ts := by
    have h' : ∀ u ∈ ts, appendRows t.name t.rows u = u := by
      intro u hu
      have hne : u.name ≠ t.name := by
        intro he
        exact h (he ▸ List.mem_map_of_mem Table.name hu)
      simp [appendRows, hne]
    calc ts.map (appendRows t.name t.rows) = ts.map (fun t => t) :=
          List.map_congr_left h'
      _ = ts := List.map_id' ts
  have h2 : appendRows t.name t.rows ⟨t.name, t.cols, []⟩ = t := by
    obtain ⟨n, c, r⟩ := t
    simp [appendRows]
  rw [h1]
  simp [h2]

theorem foldl_dump_tables (tables : List Table) :
    ∀ ts : List Table,
      (tables.map Table.name).Nodup →
      (∀ n ∈ tables.map Table.name, n ∉ ts.map Table.name) →
      List.foldl execStatement ⟨ts⟩ (tables.map dumpTable).flatten = ⟨ts ++ tables⟩ := by
  induction tables with
  | nil => intro ts _ _; simp
  | cons t rest ih =>
    intro ts hnodup hdisj
    simp only [List.map_cons, List.flatten_cons]
    rw [List.foldl_append]
    rw [foldl_dumpTable t ts (hdisj t.name (by simp))]
    have hrest : (rest.map Table.name).Nodup := (List.nodup_cons.mp hnodup).2
    have hhead : t.name ∉ rest.map Table.name := (List.nodup_cons.mp hnodup).1
    have hdisj' : ∀ n ∈ rest.map Table.name, n ∉ (ts ++ [t]).map Table.name := by
      intro n hn
      rw [List.map_append, List.mem_append]
      rintro (h1 | h2)
      · exact hdisj n (List.mem_cons_of_mem _ hn) h1
      · simp only [List.map_cons, List.map_nil, List.mem_singleton] at h2
        exact hhead (h2 ▸ hn)
    rw [ih (ts ++ [t]) hrest hdisj']
    simp

/-- C1: dumping a store with write_full_db_to_file and replaying the script
with read_full_db_from_file into a fresh empty store reconstructs the store
exactly — schema and per-table rows alike (hence the per-table row-sets are
set-equal) — for every store whose table names are distinct, as sqlite
guarantees. -/
theorem C1_dump_restore_roundtrip (S : Store)
    (h : (S.tables.map Table.name).Nodup) :
    read_full_db_from_file (write_full_db_to_file S) emptyStore = S := by
  obtain ⟨tables⟩ := S
  have h' : (tables.map Table.name).Nodup := h
  have step : read_full_db_from_file (write_full_db_to_file (Store.mk tables))
      emptyStore =
      List.foldl execStatement ⟨[]⟩
        ((tables.map dumpTable).flatten ++ [SqlStatement.commit]) := rfl
  rw [step, List.foldl_append, foldl_dump_tables tables [] h' (by simp)]
  rfl

/-- Witness for C1 at a concrete three-table store. -/
theorem C1_dump_restore_roundtrip_witness :
    (sampleStore.tables.map Table.name).Nodup ∧
    read_full_db_from_file (write_full_db_to_file sampleStore) emptyStore =
      sampleStore :=
  ⟨by decide, C1_dump_restore_roundtrip sampleStore (by decide)⟩

/-! ## CSV export format and triples round trip -/

theorem tripleCells_ne_nil (t : Triple) : tripleCells t ≠ [] := by
  obtain ⟨a, b, c, d⟩ := t
  simp [tripleCells]

theorem rowToTriple_tripleCells (t : Triple) : rowToTriple (tripleCells t) = some t := by
  obtain ⟨a, b, c, d⟩ := t
  rfl

theorem listMapM_tripleCells (ts : List Triple) :
    listMapM rowToTriple (ts.map tripleCells) = some ts := by
  induction ts with
  | nil => rfl
  | cons t ts ih => simp [listMapM, rowToTriple_tripleCells, ih]

theorem tripleCells_rowToTriple {r : List Str} {t : Triple}
    (h : rowToTriple r = some t) : tripleCells t = r := by
  rcases r with _ | ⟨a, _ | ⟨b, _ | ⟨c, _ | ⟨d, _ | ⟨e, r⟩⟩⟩⟩⟩ <;>
    simp [rowToTriple] at h
  rw [← h]
  rfl

theorem listMapM_rowToTriple_map {rows : List (List Str)} {ts : List Triple}
    (h : listMapM rowToTriple rows = some ts) : ts.map tripleCells = rows := by
  induction rows generalizing ts with
  | nil =>
    simp only [listMapM] at h
    cases h
    rfl
  | cons r rows ih =>
    simp only [listMapM] at h
    cases hr : rowToTriple r with
    | none => rw [hr] at h; exact absurd h (by simp)
    | some t =>
      cases hrest : listMapM rowToTriple rows with
      | none => rw [hr, hrest] at h; exact absurd h (by simp)
      | some ts' =>
        rw [hr, hrest] at h
        cases h
        simp [ih hrest, tripleCells_rowToTriple hr]

/-- C5 (amended): write_observations and write_key_values always emit a
header row carrying the fixed column names in order, no index column, and
then the table rows in read order; write_triples does the same whenever the
triples table is nonempty (on an empty table `pd.DataFrame([])` has no
columns and the file is a single empty line, see the counterexample). -/
theorem C5_amended_export_format :
    (∀ (amb : Ambient) (db : Store) (rows : List (List Str)),
        selectAll db (str "observations") = some rows →
        (∀ r ∈ rows, r.length = OBSERVATION_FIELD_NAMES.length) →
        ∃ out, write_observations amb db = some out ∧
          csvParse out = OBSERVATION_FIELD_NAMES :: rows) ∧
    (∀ (amb : Ambient) (db : Store) (rows : List (List Str)),
        selectAll db (str "key_value_store") = some rows →
        (∀ r ∈ rows, r.length = KEY_VALUE_FIELD_NAMES.length) →
        ∃ out, write_key_values amb db = some out ∧
          csvParse out = KEY_VALUE_FIELD_NAMES :: rows) ∧
    (∀ (amb : Ambient) (db : Store) (rows : List (List Str)) (ts : List Triple),
        selectAll db (str "triples") = some rows →
        listMapM rowToTriple rows = some ts → ts ≠ [] →
        ∃ out, write_triples amb db = some out ∧
          csvParse out = TRIPLE_FIELD_NAMES :: rows) := by
  refine ⟨?_, ?_, ?_⟩
  · intro amb db rows hsel hlen
    have hall : (rows.all fun r => r.length == OBSERVATION_FIELD_NAMES.length) = true :=
      List.all_eq_true.mpr fun r hr => by simp [hlen r hr]
    refine ⟨csvRender (OBSERVATION_FIELD_NAMES :: rows), ?_, ?_⟩
    · simp [write_observations, hsel, hall]
    · apply csvParse_render
      intro r hr
      rcases List.mem_cons.mp hr with h | h
      · subst h; simp [OBSERVATION_FIELD_NAMES]
      · have := hlen r h
        apply List.length_pos.mp
        rw [this]
        simp [OBSERVATION_FIELD_NAMES]
  · intro amb db rows hsel hlen
    have hall : (rows.all fun r => r.length == KEY_VALUE_FIELD_NAMES.length) = true :=
      List.all_eq_true.mpr fun r hr => by simp [hlen r hr]
    refine ⟨csvRender (KEY_VALUE_FIELD_NAMES :: rows), ?_, ?_⟩
    · simp [write_key_values, hsel, hall]
    · apply csvParse_render
      intro r hr
      rcases List.mem_cons.mp hr with h | h
      · subst h; simp [KEY_VALUE_FIELD_NAMES]
      · have := hlen r h
        apply List.length_pos.mp
        rw [this]
        simp [KEY_VALUE_FIELD_NAMES]
  · intro amb db rows ts hsel hmap hts
    have hrows : ts.map tripleCells = rows := listMapM_rowToTriple_map hmap
    refine ⟨write_triples_list ts, ?_, ?_⟩
    · simp [write_triples, hsel, hmap]
    · unfold write_triples_list
      rw [if_neg hts, hrows, csvParse_render]
      intro r hr
      rcases List.mem_cons.mp hr with h | h
      · subst h; simp [TRIPLE_FIELD_NAMES]
      · rw [← hrows] at h
        obtain ⟨t, _, rfl⟩ := List.mem_map.mp h
        exact tripleCells_ne_nil t

/-- Witness for C5 at a concrete store holding one observation row. -/
theorem C5_amended_export_format_witness :
    ∃ out, write_observations ⟨0⟩ sampleStore = some out ∧
      csvParse out =
        OBSERVATION_FIELD_NAMES :: [[str "e1", str "v1", str "2023", str "1"]] :=
  C5_amended_export_format.1 ⟨0⟩ sampleStore
    [[str "e1", str "v1", str "2023", str "1"]] (by decide) (by decide)

/-- C5 counterexample: on a store whose triples table is empty, write_triples
writes a file whose only record is one empty field — no header row with the
Triple column names is emitted. -/
theorem C5_counterexample :
    write_triples ⟨0⟩ storeEmptyTriples = some (str "\n") ∧
    csvParse (str "\n") = [[([] : Str)]] ∧
    ([([] : Str)] : List Str) ≠ TRIPLE_FIELD_NAMES := by
  refine ⟨?_, ?_, ?_⟩ <;> decide

/-- C10 counterexample: writing the empty triple list produces a single
empty line (a zero-column DataFrame), which read_triples_csv fails to read
back (pandas raises EmptyDataError); the empty list does not round-trip. -/
theorem C10_counterexample :
    read_triples_csv (write_triples_list []) = none ∧
    read_triples_csv (write_triples_list []) ≠ some [] := by
  refine ⟨?_, ?_⟩ <;> decide

/-- C10 (amended): every nonempty triple list written by write_triples_list
is read back unchanged by read_triples_csv — in particular fields that are
empty strings survive, because keep_default_na=False takes every cell
verbatim. -/
theorem C10_amended_triples_roundtrip (ts : List Triple) (h : ts ≠ []) :
    read_triples_csv (write_triples_list ts) = some ts := by
  unfold write_triples_list
  rw [if_neg h]
  unfold read_triples_csv
  rw [csvParse_render]
  · simp [listMapM_tripleCells]
  · intro r hr
    rcases List.mem_cons.mp hr with h' | h'
    · subst h'; simp [TRIPLE_FIELD_NAMES]
    · obtain ⟨t, _, rfl⟩ := List.mem_map.mp h'
      exact tripleCells_ne_nil t

/-- Witness for C10 at a one-element list whose object_value is the empty
string. -/
theorem C10_amended_triples_roundtrip_witness :
    (([⟨str "s", str "p", str "o", str ""⟩] : List Triple) ≠ []) ∧
    read_triples_csv (write_triples_list [⟨str "s", str "p", str "o", str ""⟩]) =
      some [⟨str "s", str "p", str "o", str ""⟩] :=
  ⟨by decide, C10_amended_triples_roundtrip [⟨str "s", str "p", str "o", str ""⟩] (by decide)⟩
